import Mathlib

/-!
Verification of the Datarush-2025 data cache layer.

This file gives a shallow embedding of the cache core of the repository
(class CacheManager and the cache branch of LoadData.load_data in
src/main.py) and of the calendar-conversion helper next_hajj in
src/dates.py, and proves the stated properties about them.

Modelling conventions:
* A Python dict is an insertion-ordered association list with unique keys;
  Python dict equality is key-set plus per-key value equality (dictEq).
* The file system seen by os.path.getmtime is a function from paths to
  Except: ok t is a successful stat returning mtime t, error e is any
  raised exception (missing file, permission error, bad path value).
* Modification times are modelled as naturals.
* The two cache files are modelled by their decoded content:
  none            - the file is absent;
  some none       - the file exists but its bytes do not decode
                    (pickle.load / json.load raises);
  some (some x)   - the file exists and decodes to x.
* Writing a file with open(path, mode) followed by dump is not atomic:
  the open truncates the destination in place, so an error raised during
  the dump leaves a half-written, undecodable file (modelled by the
  WriteRes.errDuring outcome); an error raised by open itself leaves the
  previous file untouched (WriteRes.errBefore).
* The cache payload (a dict of DataFrames) is an opaque type parameter.
-/

namespace Datarush

/-- Logical source name: a key of the source_paths dict. -/
abbrev Name := String

/-- A resolved file-system path (string, as produced by os.path.normpath). -/
abbrev SrcPath := String

/-- A modification time as returned by os.path.getmtime. -/
abbrev Mtime := Nat

/-- The fingerprint (the meta dict): logical name to mtime-or-None,
in insertion order, as built by CacheManager.compute_mtimes. -/
abbrev Fingerprint := List (Name × Option Mtime)

/-- Result of one os.path.getmtime call: the mtime, or a raised exception. -/
abbrev StatResult := Except String Mtime

/-- The file-system view used for fingerprinting: what stat-ing each path yields. -/
abbrev FS := SrcPath → StatResult

/-- The per-entry body of CacheManager.compute_mtimes:
try: mtimes[key] = os.path.getmtime(path) / except Exception: mtimes[key] = None. -/
def mtimeOrNone (fs : FS) (path : SrcPath) : Option Mtime :=
  match fs path with
  | Except.ok t => some t
  | Except.error _ => none

/-- CacheManager.compute_mtimes: given name-to-path entries, record each
file's mtime, or None when the stat raises. -/
def compute_mtimes (fs : FS) : List (Name × SrcPath) → Fingerprint
  | [] => []
  | (key, path) :: rest => (key, mtimeOrNone fs path) :: compute_mtimes fs rest

/-- One direction of Python dict equality: every entry of a is found,
with the same value, under its key in b. -/
def keysSub (a b : Fingerprint) : Bool :=
  a.all fun kv => b.lookup kv.1 == some kv.2

/-- Python dict equality (saved_meta == current_meta): same key set and,
for every key, the same value. -/
def dictEq (a b : Fingerprint) : Bool :=
  keysSub a b && keysSub b a

/-- The persistent state the cache manager reads and writes: the value of
the FORCE_RELOAD environment variable and the decoded content of the two
cache files. -/
structure CacheState (α : Type) where
  forceReloadEnv : String
  cacheFile : Option (Option α)
  metaFile : Option (Option Fingerprint)
deriving Repr

/-- CacheManager.is_cache_valid: false when FORCE_RELOAD is "1"; false when
either file is absent; false when the meta file does not decode; otherwise
Python dict equality of the stored and current fingerprints. -/
def is_cache_valid {α : Type} (st : CacheState α) (current_meta : Fingerprint) : Bool :=
  if st.forceReloadEnv == "1" then
    false
  else if !st.cacheFile.isSome || !st.metaFile.isSome then
    false
  else
    match st.metaFile with
    | none => false
    | some none => false
    | some (some saved_meta) => dictEq saved_meta current_meta

/-- CacheManager.is_cache_valid run against the state it reads: every
statement of the method (environment read, existence checks, opening the
meta file for reading) only reads, so the state component is returned
unchanged. -/
def is_cache_valid_run {α : Type} (st : CacheState α) (current_meta : Fingerprint) :
    Bool × CacheState α :=
  (is_cache_valid st current_meta, st)

/-- The exception raised by CacheManager.load_cache, when any. -/
inductive LoadErr
  /-- open(self.cache_file, "rb") raised: the file is absent. -/
  | fileNotFound
  /-- pickle.load raised: the stored bytes do not decode (cache corrupt). -/
  | unpickle
deriving DecidableEq, Repr

/-- CacheManager.load_cache: open the cache file and unpickle the payload;
raises when the file is absent or its bytes do not decode. -/
def load_cache {α : Type} (st : CacheState α) : Except LoadErr α :=
  match st.cacheFile with
  | none => Except.error LoadErr.fileNotFound
  | some none => Except.error LoadErr.unpickle
  | some (some payload) => Except.ok payload

/-- Outcome of one open-then-dump file write in save_cache. -/
inductive WriteRes
  /-- open and dump both complete. -/
  | ok
  /-- open itself raises: the destination file is untouched. -/
  | errBefore
  /-- dump raises after open truncated the destination: a half-written,
  undecodable file is left at the final path. -/
  | errDuring
deriving DecidableEq, Repr

/-- CacheManager.save_cache: pickle the payload into the cache file, then
compute the mtime fingerprint and json-dump it into the meta file. Both
writes go directly to the final paths (open truncates in place; there is
no temporary file). The Bool result is true when the method returns
normally, false when a write raised (after which nothing further runs). -/
def save_cache {α : Type} (st : CacheState α) (fs : FS) (payload : α)
    (source_paths : List (Name × SrcPath)) (w1 w2 : WriteRes) :
    CacheState α × Bool :=
  match w1 with
  | WriteRes.ok =>
    let st1 : CacheState α := { st with cacheFile := some (some payload) }
    match w2 with
    | WriteRes.ok =>
      ({ st1 with metaFile := some (some (compute_mtimes fs source_paths)) }, true)
    | WriteRes.errBefore => (st1, false)
    | WriteRes.errDuring => ({ st1 with metaFile := some none }, false)
  | WriteRes.errBefore => (st, false)
  | WriteRes.errDuring => ({ st with cacheFile := some none }, false)

/-- Where LoadData.load_data got its data from. -/
inductive DataOrigin
  /-- the cached payload was valid and decoded. -/
  | cache
  /-- full reload from the source files. -/
  | sources
deriving DecidableEq, Repr

/-- The cache branch of LoadData.load_data: when is_cache_valid holds it
tries load_cache inside try/except; any exception there is caught and the
method falls through to the full source reload. The function is total:
no cache failure escapes it. -/
def load_data_origin {α : Type} (st : CacheState α) (fs : FS)
    (source_paths : List (Name × SrcPath)) : DataOrigin :=
  let current_meta := compute_mtimes fs source_paths
  if is_cache_valid st current_meta then
    match load_cache st with
    | Except.ok _ => DataOrigin.cache
    | Except.error _ => DataOrigin.sources
  else
    DataOrigin.sources

/-- Observable outcome of next_hajj (src/dates.py). -/
inductive NextHajjResult
  /-- the normal return: the pair (hajj_date, hajj_date + 5 days). -/
  | dates (start finish : Nat)
  /-- an exception raised by the conversion on line 13, outside the try
  block, propagates uncaught to the caller. -/
  | raised
  /-- the except branch: the function returns an apology string instead
  of a date pair. -/
  | message (s : String)
deriving DecidableEq, Repr

/-- next_hajj from src/dates.py. The external collaborator
Hijri(y, m, d).to_gregorian() is a parameter: some date (as an ordinal
day count) on success, none when the library raises for an out-of-range
Hijri date. The first conversion call sits outside the try block; the
try block repeats the same call, adds a five-day timedelta and returns
the pair, and its except branch returns a string. -/
def next_hajj (to_gregorian : Int → Int → Int → Option Nat) (year : Int) :
    NextHajjResult :=
  let example_hijiri_year : Int := 1446
  let example_normal_year : Int := 2025
  let difference : Int := example_normal_year - example_hijiri_year
  let hijri_year : Int := year - difference
  match to_gregorian hijri_year 12 8 with
  | none => NextHajjResult.raised
  | some _ =>
    match to_gregorian hijri_year 12 8 with
    | some hajj_date => NextHajjResult.dates hajj_date (hajj_date + 5)
    | none =>
      NextHajjResult.message ("Dios nos ampare, no encontramos " ++ toString year ++ " :(")

/-! ## Association-list (Python dict) lemmas -/

theorem mem_of_lookup_eq_some {β : Type} {l : List (Name × β)} {k : Name} {v : β}
    (h : l.lookup k = some v) : (k, v) ∈ l := by
  induction l with
  | nil => simp [List.lookup] at h
  | cons kv rest ih =>
    obtain ⟨k', v'⟩ := kv
    cases hk : k == k' with
    | true =>
      simp only [List.lookup, hk] at h
      cases h
      have hk' : k = k' := by simpa using hk
      subst hk'
      exact List.mem_cons_self _ _
    | false =>
      simp only [List.lookup, hk] at h
      exact List.mem_cons_of_mem _ (ih h)

theorem lookup_of_mem_nodup {β : Type} {l : List (Name × β)} {k : Name} {v : β}
    (hnd : (l.map Prod.fst).Nodup) (hm : (k, v) ∈ l) : l.lookup k = some v := by
  induction l with
  | nil => cases hm
  | cons kv rest ih =>
    obtain ⟨k', v'⟩ := kv
    simp only [List.map_cons, List.nodup_cons] at hnd
    rcases List.mem_cons.mp hm with h1 | h1
    · cases h1
      simp [List.lookup]
    · have hkne : k ≠ k' := by
        intro hkk
        subst hkk
        exact hnd.1 (List.mem_map_of_mem Prod.fst h1)
      have hk : (k == k') = false := by simpa using hkne
      simp only [List.lookup, hk]
      exact ih hnd.2 h1

theorem lookup_eq_of_dictEq {a b : Fingerprint} (h : dictEq a b = true) (k : Name) :
    a.lookup k = b.lookup k := by
  rw [dictEq, Bool.and_eq_true] at h
  obtain ⟨h1, h2⟩ := h
  rw [keysSub, List.all_eq_true] at h1 h2
  cases ha : a.lookup k with
  | some v =>
    have hb := h1 _ (mem_of_lookup_eq_some ha)
    have : b.lookup k = some v := by simpa using hb
    rw [this]
  | none =>
    cases hb : b.lookup k with
    | some w =>
      have haw := h2 _ (mem_of_lookup_eq_some hb)
      have : a.lookup k = some w := by simpa using haw
      rw [ha] at this
      cases this
    | none => rfl

theorem dictEq_of_lookup_eq {a b : Fingerprint}
    (hna : (a.map Prod.fst).Nodup) (hnb : (b.map Prod.fst).Nodup)
    (h : ∀ k, a.lookup k = b.lookup k) : dictEq a b = true := by
  rw [dictEq, Bool.and_eq_true]
  constructor <;> rw [keysSub, List.all_eq_true]
  · intro kv hkv
    have hmem : (kv.1, kv.2) ∈ a := by
      rw [Prod.mk.eta]
      exact hkv
    have hla : a.lookup kv.1 = some kv.2 := lookup_of_mem_nodup hna hmem
    have hlb : b.lookup kv.1 = some kv.2 := (h kv.1).symm.trans hla
    simp [hlb]
  · intro kv hkv
    have hmem : (kv.1, kv.2) ∈ b := by
      rw [Prod.mk.eta]
      exact hkv
    have hlb : b.lookup kv.1 = some kv.2 := lookup_of_mem_nodup hnb hmem
    have hla : a.lookup kv.1 = some kv.2 := (h kv.1).trans hlb
    simp [hla]

/-! ## compute_mtimes lemmas -/

theorem compute_mtimes_keys (fs : FS) (sp : List (Name × SrcPath)) :
    (compute_mtimes fs sp).map Prod.fst = sp.map Prod.fst := by
  induction sp with
  | nil => rfl
  | cons kv rest ih =>
    obtain ⟨k, p⟩ := kv
    simp [compute_mtimes, ih]

theorem compute_mtimes_lookup (fs : FS) (sp : List (Name × SrcPath)) (k : Name) :
    (compute_mtimes fs sp).lookup k = (sp.lookup k).map (mtimeOrNone fs) := by
  induction sp with
  | nil => rfl
  | cons kv rest ih =>
    obtain ⟨k', p⟩ := kv
    cases hk : k == k' <;> simp [compute_mtimes, List.lookup, hk, ih]

theorem compute_mtimes_getElem (fs : FS) (sp : List (Name × SrcPath)) (i : Nat) :
    (compute_mtimes fs sp)[i]? = (sp[i]?).map fun kp => (kp.1, mtimeOrNone fs kp.2) := by
  induction sp generalizing i with
  | nil => simp [compute_mtimes]
  | cons kv rest ih =>
    obtain ⟨k, p⟩ := kv
    cases i with
    | zero => simp [compute_mtimes]
    | succ n => simp [compute_mtimes, ih]

/-! ## Claim theorems -/

/-- C2: is_cache_valid returns false when the force-reload override is
active, false when the bundle (cache) file or the fingerprint (meta) file
is absent, false when the stored fingerprint record cannot be decoded,
and otherwise returns true exactly when the current fingerprint equals
the stored one as a map: same key set and, at every key, the same
timestamp-or-absent value. -/
theorem is_cache_valid_spec {α : Type} (st : CacheState α) (F : Fingerprint) :
    (st.forceReloadEnv = "1" → is_cache_valid st F = false) ∧
    (st.cacheFile = none → is_cache_valid st F = false) ∧
    (st.metaFile = none → is_cache_valid st F = false) ∧
    (st.metaFile = some none → is_cache_valid st F = false) ∧
    (∀ saved : Fingerprint, st.metaFile = some (some saved) →
      (saved.map Prod.fst).Nodup → (F.map Prod.fst).Nodup →
      (is_cache_valid st F = true ↔
        st.forceReloadEnv ≠ "1" ∧ st.cacheFile.isSome = true ∧
          ∀ k, saved.lookup k = F.lookup k)) := by
  refine ⟨?_, ?_, ?_, ?_, ?_⟩
  · intro h
    simp [is_cache_valid, h]
  · intro h
    simp [is_cache_valid, h]
  · intro h
    simp [is_cache_valid, h]
  · intro h
    simp [is_cache_valid, h]
  · intro saved hs hnds hndF
    cases hc : st.cacheFile with
    | none => simp [is_cache_valid, hs, hc]
    | some b =>
      by_cases henv : st.forceReloadEnv = "1"
      · simp [is_cache_valid, henv]
      · have henvb : (st.forceReloadEnv == "1") = false := by simpa using henv
        simp only [is_cache_valid, henvb, hs, hc, Bool.false_eq_true, if_false,
          Option.isSome_some, Bool.not_true, Bool.false_or, Bool.or_self]
        constructor
        · intro h
          have hd : dictEq saved F = true := by
            simpa using h
          exact ⟨henv, by simp [hc], fun k => lookup_eq_of_dictEq hd k⟩
        · intro h
          simpa using dictEq_of_lookup_eq hnds hndF h.2.2

/-- Witness for C2 at a concrete state: both files present, stored
fingerprint equal to the current one, override off. -/
theorem is_cache_valid_spec_witness :
    is_cache_valid
      (⟨"", some (some 7), some (some [("a", some 3)])⟩ : CacheState Nat)
      [("a", some 3)] = true := by
  have h :=
    (is_cache_valid_spec (⟨"", some (some 7), some (some [("a", some 3)])⟩ : CacheState Nat)
      [("a", some 3)]).2.2.2.2 [("a", some 3)] rfl (by decide) (by decide)
  exact h.mpr ⟨by decide, rfl, fun k => rfl⟩

/-- C4: whenever the force-reload override variable is set to the
affirmative value "1", is_cache_valid returns false for every current
fingerprint, even one equal to the stored fingerprint. -/
theorem force_reload_forces_false {α : Type} (st : CacheState α) (F : Fingerprint)
    (h : st.forceReloadEnv = "1") : is_cache_valid st F = false := by
  simp [is_cache_valid, h]

/-- Witness for C4: the override is on and the stored fingerprint matches
the current one exactly, yet the check fails. -/
theorem force_reload_forces_false_witness :
    is_cache_valid
      (⟨"1", some (some 7), some (some [("a", some 3)])⟩ : CacheState Nat)
      [("a", some 3)] = false :=
  force_reload_forces_false
    (⟨"1", some (some 7), some (some [("a", some 3)])⟩ : CacheState Nat)
    [("a", some 3)] rfl

/-- C3: round-trip law. After a fully successful save_cache of bundle B
against source map sp, load_cache returns B and is_cache_valid of the
freshly recomputed fingerprint returns true, provided no referenced file
changes (same file-system view fs) and the force-reload override is off. -/
theorem save_load_round_trip {α : Type} (st : CacheState α) (fs : FS) (B : α)
    (sp : List (Name × SrcPath))
    (henv : st.forceReloadEnv ≠ "1")
    (hnd : (sp.map Prod.fst).Nodup) :
    load_cache (save_cache st fs B sp WriteRes.ok WriteRes.ok).1 = Except.ok B ∧
    is_cache_valid (save_cache st fs B sp WriteRes.ok WriteRes.ok).1
      (compute_mtimes fs sp) = true := by
  have henvb : (st.forceReloadEnv == "1") = false := by simpa using henv
  have hndM : ((compute_mtimes fs sp).map Prod.fst).Nodup := by
    rw [compute_mtimes_keys]
    exact hnd
  constructor
  · rfl
  · simp [save_cache, is_cache_valid, henvb]
    exact dictEq_of_lookup_eq hndM hndM fun k => rfl

/-- Witness for C3 at a concrete bundle, source map and file system. -/
theorem save_load_round_trip_witness :
    load_cache (save_cache (⟨"", none, none⟩ : CacheState Nat)
        (fun _ => Except.ok 5) 3 [("a", "pa")] WriteRes.ok WriteRes.ok).1 = Except.ok 3 ∧
    is_cache_valid (save_cache (⟨"", none, none⟩ : CacheState Nat)
        (fun _ => Except.ok 5) 3 [("a", "pa")] WriteRes.ok WriteRes.ok).1
      (compute_mtimes (fun _ => Except.ok 5) [("a", "pa")]) = true :=
  save_load_round_trip (⟨"", none, none⟩ : CacheState Nat)
    (fun _ => Except.ok 5) 3 [("a", "pa")] (by decide) (by decide)

/-- C5: changing the modification time of one file referenced by the
source map between save_cache and the next validity check flips
is_cache_valid from true to false. -/
theorem mtime_change_flips_validity {α : Type} (st : CacheState α) (fs1 fs2 : FS)
    (B : α) (sp : List (Name × SrcPath)) (k : Name) (p : SrcPath) (t1 t2 : Mtime)
    (henv : st.forceReloadEnv ≠ "1")
    (hnd : (sp.map Prod.fst).Nodup)
    (hmem : (k, p) ∈ sp)
    (h1 : fs1 p = Except.ok t1) (h2 : fs2 p = Except.ok t2) (hne : t1 ≠ t2) :
    is_cache_valid (save_cache st fs1 B sp WriteRes.ok WriteRes.ok).1
        (compute_mtimes fs1 sp) = true ∧
    is_cache_valid (save_cache st fs1 B sp WriteRes.ok WriteRes.ok).1
        (compute_mtimes fs2 sp) = false := by
  have henvb : (st.forceReloadEnv == "1") = false := by simpa using henv
  have hndM1 : ((compute_mtimes fs1 sp).map Prod.fst).Nodup := by
    rw [compute_mtimes_keys]
    exact hnd
  constructor
  · simp [save_cache, is_cache_valid, henvb]
    exact dictEq_of_lookup_eq hndM1 hndM1 fun _ => rfl
  · simp only [save_cache, is_cache_valid, henvb, Bool.false_eq_true, if_false,
      Option.isSome_some, Bool.not_true, Bool.false_or, Bool.or_self]
    by_contra hcon
    have htrue : dictEq (compute_mtimes fs1 sp) (compute_mtimes fs2 sp) = true := by
      revert hcon
      cases dictEq (compute_mtimes fs1 sp) (compute_mtimes fs2 sp) <;> simp
    have hlk := lookup_eq_of_dictEq htrue k
    rw [compute_mtimes_lookup, compute_mtimes_lookup,
      lookup_of_mem_nodup hnd hmem] at hlk
    simp [mtimeOrNone, h1, h2] at hlk
    exact hne hlk

/-- Witness for C5: one file whose mtime moves from 1 to 2. -/
theorem mtime_change_flips_validity_witness :
    is_cache_valid (save_cache (⟨"", none, none⟩ : CacheState Nat)
        (fun _ => Except.ok 1) 3 [("a", "p")] WriteRes.ok WriteRes.ok).1
        (compute_mtimes (fun _ => Except.ok 1) [("a", "p")]) = true ∧
    is_cache_valid (save_cache (⟨"", none, none⟩ : CacheState Nat)
        (fun _ => Except.ok 1) 3 [("a", "p")] WriteRes.ok WriteRes.ok).1
        (compute_mtimes (fun _ => Except.ok 2) [("a", "p")]) = false :=
  mtime_change_flips_validity (⟨"", none, none⟩ : CacheState Nat)
    (fun _ => Except.ok 1) (fun _ => Except.ok 2) 3 [("a", "p")] "a" "p" 1 2
    (by decide) (by decide) (by decide) rfl rfl (by decide)

/-- C6: compute_mtimes never raises. It is a total function; entry by
entry it records the stat's modification time on success and the absent
sentinel (none) on any per-file failure, instead of aborting the whole
fingerprint. -/
theorem compute_mtimes_never_raises (fs : FS) (sp : List (Name × SrcPath)) :
    (∀ i : Nat, (compute_mtimes fs sp)[i]? =
      (sp[i]?).map fun kp => (kp.1, mtimeOrNone fs kp.2)) ∧
    (∀ path t, fs path = Except.ok t → mtimeOrNone fs path = some t) ∧
    (∀ path e, fs path = Except.error e → mtimeOrNone fs path = none) := by
  refine ⟨compute_mtimes_getElem fs sp, ?_, ?_⟩
  · intro path t h
    simp [mtimeOrNone, h]
  · intro path e h
    simp [mtimeOrNone, h]

/-- Witness for C6: one stat that succeeds and one that raises. -/
theorem compute_mtimes_never_raises_witness :
    mtimeOrNone (fun p => if p = "a" then Except.ok 9 else Except.error "no") "a" = some 9 ∧
    mtimeOrNone (fun p => if p = "a" then Except.ok 9 else Except.error "no") "b" = none :=
  ⟨(compute_mtimes_never_raises
      (fun p => if p = "a" then Except.ok 9 else Except.error "no") []).2.1 "a" 9 (by simp),
    (compute_mtimes_never_raises
      (fun p => if p = "a" then Except.ok 9 else Except.error "no") []).2.2 "b" "no" (by simp)⟩

/-- C7: when the stored bundle bytes cannot be decoded, load_cache
signals the corruption (the pickle error), and the load_data pipeline
catches it and falls back to a full reload from sources; the decode
failure never escapes load_data_origin, which is a total function. -/
theorem corrupt_cache_forces_source_reload {α : Type} (st : CacheState α) (fs : FS)
    (sp : List (Name × SrcPath)) (h : st.cacheFile = some none) :
    load_cache st = Except.error LoadErr.unpickle ∧
    load_data_origin st fs sp = DataOrigin.sources := by
  constructor
  · simp [load_cache, h]
  · rw [load_data_origin]
    by_cases hv : is_cache_valid st (compute_mtimes fs sp)
    · simp [hv, load_cache, h]
    · simp [hv]

/-- Witness for C7: a present-but-undecodable bundle file whose stored
fingerprint matches, so the validity check passes and the decode failure
is exercised. -/
theorem corrupt_cache_forces_source_reload_witness :
    load_cache (⟨"", some none, some (some [("a", some 1)])⟩ : CacheState Nat) =
      Except.error LoadErr.unpickle ∧
    load_data_origin (⟨"", some none, some (some [("a", some 1)])⟩ : CacheState Nat)
      (fun _ => Except.ok 1) [("a", "p")] = DataOrigin.sources :=
  corrupt_cache_forces_source_reload
    (⟨"", some none, some (some [("a", some 1)])⟩ : CacheState Nat)
    (fun _ => Except.ok 1) [("a", "p")] rfl

/-- C8: is_cache_valid has no side effect on the persisted cache state.
After a successful save of bundle B, a validity check that returns false
leaves the state (both cache files) unchanged, and load_cache on the
state after the check still returns B. -/
theorem is_cache_valid_no_side_effects {α : Type} (st : CacheState α) (fs : FS) (B : α)
    (sp : List (Name × SrcPath)) (F : Fingerprint)
    (_hfalse : (is_cache_valid_run (save_cache st fs B sp WriteRes.ok WriteRes.ok).1 F).1 =
      false) :
    (is_cache_valid_run (save_cache st fs B sp WriteRes.ok WriteRes.ok).1 F).2 =
      (save_cache st fs B sp WriteRes.ok WriteRes.ok).1 ∧
    load_cache (is_cache_valid_run (save_cache st fs B sp WriteRes.ok WriteRes.ok).1 F).2 =
      Except.ok B :=
  ⟨rfl, rfl⟩

/-- Witness for C8: a saved bundle, then a check against a fingerprint
with a different key set, which returns false and changes nothing. -/
theorem is_cache_valid_no_side_effects_witness :
    (is_cache_valid_run (save_cache (⟨"", none, none⟩ : CacheState Nat)
        (fun _ => Except.ok 1) 3 [("a", "p")] WriteRes.ok WriteRes.ok).1 []).2 =
      (save_cache (⟨"", none, none⟩ : CacheState Nat)
        (fun _ => Except.ok 1) 3 [("a", "p")] WriteRes.ok WriteRes.ok).1 ∧
    load_cache (is_cache_valid_run (save_cache (⟨"", none, none⟩ : CacheState Nat)
        (fun _ => Except.ok 1) 3 [("a", "p")] WriteRes.ok WriteRes.ok).1 []).2 =
      Except.ok 3 :=
  is_cache_valid_no_side_effects (⟨"", none, none⟩ : CacheState Nat)
    (fun _ => Except.ok 1) 3 [("a", "p")] [] (by decide)

/-- C9: next_hajj either returns the start/end pair (the converted date
and five days later), or, exactly when the conversion fails for the
(out-of-range) year, propagates that failure; in particular the
string-returning except branch is dead and no other outcome occurs. -/
theorem next_hajj_outcomes (to_gregorian : Int → Int → Int → Option Nat) (year : Int) :
    ((∃ d, to_gregorian (year - 579) 12 8 = some d ∧
        next_hajj to_gregorian year = NextHajjResult.dates d (d + 5)) ∨
      (to_gregorian (year - 579) 12 8 = none ∧
        next_hajj to_gregorian year = NextHajjResult.raised)) ∧
    ∀ s, next_hajj to_gregorian year ≠ NextHajjResult.message s := by
  have h579 : (2025 : Int) - 1446 = 579 := by norm_num
  constructor
  · cases hc : to_gregorian (year - 579) 12 8 with
    | none =>
      right
      exact ⟨rfl, by simp [next_hajj, h579, hc]⟩
    | some d =>
      left
      exact ⟨d, rfl, by simp [next_hajj, h579, hc]⟩
  · intro s hmsg
    cases hc : to_gregorian (year - 579) 12 8 with
    | none => simp [next_hajj, h579, hc] at hmsg
    | some d => simp [next_hajj, h579, hc] at hmsg

/-- Witness for C9: a conversion that always succeeds yields the pair
(100, 105) for 2025. -/
theorem next_hajj_outcomes_witness :
    next_hajj (fun _ _ _ => some 100) 2025 = NextHajjResult.dates 100 105 := by
  rcases (next_hajj_outcomes (fun _ _ _ => some 100) 2025).1 with ⟨d, hd, hres⟩ | ⟨hn, _⟩
  · have hd' : d = 100 := by
      cases hd
      rfl
    rw [hd'] at hres
    exact hres
  · cases hn

/-- C10: compute_mtimes preserves the key set of the input source map
exactly (no entry added or dropped, order kept), every value is either a
numeric modification time or the absent sentinel none, and any key at
which the stored fingerprint disagrees with the computed one (in
particular any extra or missing key) makes is_cache_valid report a
miss. -/
theorem compute_mtimes_preserves_keys {α : Type} (fs : FS)
    (sp : List (Name × SrcPath)) :
    (compute_mtimes fs sp).map Prod.fst = sp.map Prod.fst ∧
    (∀ kv, kv ∈ compute_mtimes fs sp → (∃ t, kv.2 = some t) ∨ kv.2 = none) ∧
    (∀ (st : CacheState α) (saved : Fingerprint) (k : Name),
      st.metaFile = some (some saved) →
      saved.lookup k ≠ (compute_mtimes fs sp).lookup k →
      is_cache_valid st (compute_mtimes fs sp) = false) := by
  refine ⟨compute_mtimes_keys fs sp, ?_, ?_⟩
  · intro kv _
    cases h : kv.2 with
    | none => exact Or.inr rfl
    | some t => exact Or.inl ⟨t, rfl⟩
  · intro st saved k hmeta hne
    cases henv : st.forceReloadEnv == "1" with
    | true => simp [is_cache_valid, henv]
    | false =>
      cases hcf : st.cacheFile with
      | none => simp [is_cache_valid, henv, hcf]
      | some b =>
        have hd : dictEq saved (compute_mtimes fs sp) = false := by
          by_contra hcon
          have htrue : dictEq saved (compute_mtimes fs sp) = true := by
            revert hcon
            cases dictEq saved (compute_mtimes fs sp) <;> simp
          exact hne (lookup_eq_of_dictEq htrue k)
        simp [is_cache_valid, henv, hcf, hmeta, hd]

/-- Witness for C10: a stored fingerprint whose key set differs from the
current sources registers as a miss. -/
theorem compute_mtimes_preserves_keys_witness :
    is_cache_valid
      (⟨"", some (some 0), some (some [("x", some 1)])⟩ : CacheState Nat)
      (compute_mtimes (fun _ => Except.ok 9) [("a", "pa")]) = false :=
  (compute_mtimes_preserves_keys (fun _ => Except.ok 9) [("a", "pa")]).2.2
    (⟨"", some (some 0), some (some [("x", some 1)])⟩ : CacheState Nat)
    [("x", some 1)] "x" rfl (by decide)

/-- C1 (code bug): save_cache writes the bundle file in place — its open
call truncates the final path before pickling — so a failure during the
dump leaves a half-written, undecodable file at the final location,
destroying the previously valid bundle. Evaluated at the failing input:
a valid cache holding bundle 42, then a save of bundle 7 whose bundle
write fails mid-dump; afterwards the cache file is present but
undecodable and load_cache reports corruption instead of 42. -/
theorem save_cache_partial_write_corrupts :
    load_cache (⟨"", some (some 42), some (some [("countries", some 100)])⟩ :
        CacheState Nat) = Except.ok 42 ∧
    (save_cache (⟨"", some (some 42), some (some [("countries", some 100)])⟩ :
        CacheState Nat) (fun _ => Except.ok 100) 7 [("countries", "db/c.csv")]
        WriteRes.errDuring WriteRes.ok).2 = false ∧
    (save_cache (⟨"", some (some 42), some (some [("countries", some 100)])⟩ :
        CacheState Nat) (fun _ => Except.ok 100) 7 [("countries", "db/c.csv")]
        WriteRes.errDuring WriteRes.ok).1.cacheFile = some none ∧
    load_cache (save_cache (⟨"", some (some 42), some (some [("countries", some 100)])⟩ :
        CacheState Nat) (fun _ => Except.ok 100) 7 [("countries", "db/c.csv")]
        WriteRes.errDuring WriteRes.ok).1 = Except.error LoadErr.unpickle :=
  ⟨rfl, rfl, rfl, rfl⟩

end Datarush
